import Mathlib

/-!
Verification of the scene-pairing / batch-partitioning pipeline of the
opendatacube/radar job-submission scripts.

The definitions below are shallow embeddings of the Python sources:
* pairing engine:      src/code_IntCoherence/intcoh_proc_qsub.py, lines 157-194
* walltime estimators: src/SAR_ARD_code_CHPC/CHPC_intcoh_proc_qsub.py line 105,
                       src/SAR_ARD_code_CHPC/CHPC_dualpol_proc_qsub.py line 107
* batch partitioner:   src/SAR_ARD_code_CHPC/CHPC_intcoh_proc_qsub.py lines 320-327
                       (numpy array_split semantics) and
                       src/code_backscatter/backsc_proc_qsub.py lines 152-157
* idempotency filter:  src/SAR_ARD_code_CHPC/CHPC_dualpol_proc_qsub.py lines 246-251
* submission walltime: src/SAR_ARD_code_CHPC/CHPC_intcoh_proc_qsub.py line 357
Python float arithmetic is modelled exactly over the rationals.
-/

namespace Radar

/-- One catalog scene as read by the pairing loop: the centroid latitude and
longitude strings, the absolute orbit number (after the int conversion the
code performs) and the relative orbit number string (compared as a string). -/
structure Scene where
  lat : String
  lon : String
  absOrbit : ℤ
  relOrbit : String
deriving DecidableEq, Inhabited

/-- The leading 5 characters of a decimal string: embeds the Python slice
used in the coordinate comparison of the pairing loops. -/
def take5 (s : String) : List Char := s.data.take 5

/-- The pair condition of intcoh_proc_qsub.py line 186: equality of the
5-character latitude and longitude prefixes, absolute orbit difference
strictly below 180, and equal relative orbit strings. -/
def matchB (a b : Scene) : Bool :=
  decide (take5 a.lat = take5 b.lat) && decide (take5 a.lon = take5 b.lon) &&
    decide (|a.absOrbit - b.absOrbit| < 180) && decide (a.relOrbit = b.relOrbit)

/-- Inner loop of the pairing scan for a fixed outer index: the indices
ind2 in range(ind1+1, n) whose scene matches the outer scene, emitted as
(ind1, ind2) index pairs in loop order. -/
def innerMatches (s : List Scene) (i : ℕ) : List (ℕ × ℕ) :=
  ((List.range' (i + 1) (s.length - (i + 1))).filter fun j =>
    matchB (s.getD i default) (s.getD j default)).map fun j => (i, j)

/-- The full pairing double loop (intcoh_proc_qsub.py lines 158-194) at the
level of index pairs, in emission order. -/
def findPairsIdx (s : List Scene) : List (ℕ × ℕ) :=
  ((List.range s.length).map (innerMatches s)).flatten

/-- The emitted pair units: the first component is the outer-loop scene
(the earlier encounter position, the primary), the second the inner-loop
scene (the secondary). -/
def findPairs (s : List Scene) : List (Scene × Scene) :=
  (findPairsIdx s).map fun p => (s.getD p.1 default, s.getD p.2 default)

/-- Fitted per-pair walltime curve of CHPC_intcoh_proc_qsub.py line 105,
in minutes, as a function of the CPU count. -/
def walltime_per_pair (ncpu : ℕ) : ℚ :=
  1.35 * (-2.970 + 148.646 / (ncpu : ℚ) + 1.844 * (ncpu : ℚ) - 0.035 * (ncpu : ℚ) ^ 2)

/-- Fitted per-scene walltime curve of CHPC_dualpol_proc_qsub.py line 107. -/
def walltime_per_scene (ncpu : ℕ) : ℚ :=
  1.35 * (-17.595 + 345.577 / (ncpu : ℚ) + 8.108 * (ncpu : ℚ) - 0.184 * (ncpu : ℚ) ^ 2)

/-- Total estimated walltime of a workload: the per-unit walltime scaled by
the unit count (CHPC_intcoh_proc_qsub.py line 321). -/
def totalWalltime (w : ℚ) (nUnits : ℕ) : ℚ := w * nUnits

/-- Python round applied to a rational: round half to even. -/
def pythonRound (q : ℚ) : ℤ :=
  if q - ⌊q⌋ < 1 / 2 then ⌊q⌋
  else if 1 / 2 < q - ⌊q⌋ then ⌊q⌋ + 1
  else if ⌊q⌋ % 2 = 0 then ⌊q⌋ else ⌊q⌋ + 1

/-- numpy array_split: a list of length L split into n pieces gives
L mod n pieces of size L div n + 1 followed by pieces of size L div n. -/
def array_split {α : Type} (l : List α) : ℕ → List (List α)
  | 0 => []
  | n + 1 =>
    l.take (l.length / (n + 1) + if l.length % (n + 1) = 0 then 0 else 1) ::
      array_split (l.drop (l.length / (n + 1) + if l.length % (n + 1) = 0 then 0 else 1)) n

/-- Job count of CHPC_intcoh_proc_qsub.py lines 321-325: the walltime-driven
count, capped by the unit count, then raised to the count-driven minimum. -/
def njobsZ (nUnits : ℕ) (w maxTimePerJob : ℚ) (maxUnitsPerJob : ℕ) : ℤ :=
  max (min ⌈totalWalltime w nUnits / maxTimePerJob⌉ (nUnits : ℤ))
    ⌈(nUnits : ℚ) / (maxUnitsPerJob : ℚ)⌉

/-- Batch partitioner of CHPC_intcoh_proc_qsub.py lines 321-327: fails when
the job count exceeds the MAX_N_JOBS ceiling, otherwise splits the units
with array_split. -/
def partition {α : Type} (units : List α) (w maxTimePerJob : ℚ)
    (maxUnitsPerJob maxNJobs : ℕ) : Except String (List (List α)) :=
  if (maxNJobs : ℤ) < njobsZ units.length w maxTimePerJob maxUnitsPerJob then
    Except.error "Error: Too many SBATCH jobs for this query."
  else
    Except.ok (array_split units (njobsZ units.length w maxTimePerJob maxUnitsPerJob).toNat)

/-- Job count of backsc_proc_qsub.py line 153: driven by the unit count only. -/
def backscNJobs (nUnits maxUnitsPerJob : ℕ) : ℤ :=
  ⌈(nUnits : ℚ) / (maxUnitsPerJob : ℚ)⌉

/-- Batch partitioner of backsc_proc_qsub.py lines 152-157. -/
def backscPartition {α : Type} (units : List α) (maxUnitsPerJob maxNJobs : ℕ) :
    Except String (List (List α)) :=
  if (maxNJobs : ℤ) < backscNJobs units.length maxUnitsPerJob then
    Except.error "Too many jobs for this query."
  else
    Except.ok (array_split units (backscNJobs units.length maxUnitsPerJob).toNat)

/-- Walltime field of one SBATCH submission (CHPC_intcoh_proc_qsub.py line
357): the per-pair estimate at the given CPU count times the batch size,
rounded with Python round. -/
def sbatchWalltime (ncpu nUnitsInJob : ℕ) : ℤ :=
  pythonRound (walltime_per_pair ncpu * (nUnitsInJob : ℚ))

/-- Idempotency filter of CHPC_dualpol_proc_qsub.py lines 246-251: when the
reprocess flag is off, drop every unit whose expected output artifact exists
in the filesystem snapshot; when it is on, keep everything. -/
def filterExisting {α : Type} (isfile : String → Bool) (outPath : α → String)
    (force : Bool) (units : List α) : List α :=
  if force then units else units.filter fun u => !isfile (outPath u)

/-- Line 312 of CHPC_intcoh_proc_qsub.py formats the local n_pairs, which is
first assigned only at line 314; Python raises UnboundLocalError there. The
not-yet-assigned local is modelled as an Option that is none at this point. -/
def reportSkippedLine (n_not_reproc : ℕ) (n_pairs : Option ℕ) : Except String Unit :=
  if n_not_reproc ≠ 0 then
    match n_pairs with
    | some _ => Except.ok ()
    | none => Except.error "UnboundLocalError: local variable n_pairs referenced before assignment"
  else Except.ok ()

/-- Lines 311-314 of CHPC_intcoh_proc_qsub.py: report the skipped-pair count
(with n_pairs still unassigned), then count the pairs to process. -/
def intcohCountAndReport (filepairs : List String) (n_not_reproc : ℕ) :
    Except String ℕ :=
  match reportSkippedLine n_not_reproc none with
  | Except.error e => Except.error e
  | Except.ok _ => Except.ok filepairs.length

/-- Outcome of a run tail: an uncaught exception, a sys.exit with a message
(exit status 1), the informational no-work return, or the produced batches. -/
inductive RunOutcome (α : Type) where
  | crashed : String → RunOutcome α
  | exited : String → RunOutcome α
  | noWork : RunOutcome α
  | jobs : List (List α) → RunOutcome α

/-- Run tail of CHPC_intcoh_proc_qsub.py lines 311-327: first the
skipped-pair report, which raises UnboundLocalError whenever the
idempotency filter dropped at least one pair (reportSkippedLine with the
local n_pairs still unassigned); then the zero-pair informational return of
lines 315-317; then the partitioner, whose ceiling violation is the
sys.exit of line 326. -/
def intcohTail {α : Type} (filepairs : List α) (n_not_reproc : ℕ) (w maxTimePerJob : ℚ)
    (maxUnitsPerJob maxNJobs : ℕ) : RunOutcome α :=
  match reportSkippedLine n_not_reproc none with
  | Except.error e => RunOutcome.crashed e
  | Except.ok _ =>
    if filepairs.length = 0 then RunOutcome.noWork
    else
      match partition filepairs w maxTimePerJob maxUnitsPerJob maxNJobs with
      | Except.error e => RunOutcome.exited e
      | Except.ok bs => RunOutcome.jobs bs

/-- Run tail of backsc_proc_qsub.py lines 152-157: there is no zero-unit
guard; the job count is computed and checked against the ceiling, and then
numpy array_split is called, which raises ValueError when the number of
sections is not positive, which happens exactly when zero units remain. -/
def backscTail {α : Type} (units : List α) (maxUnitsPerJob maxNJobs : ℕ) : RunOutcome α :=
  if (maxNJobs : ℤ) < backscNJobs units.length maxUnitsPerJob then
    RunOutcome.exited "Too many jobs for this query."
  else if backscNJobs units.length maxUnitsPerJob ≤ 0 then
    RunOutcome.crashed "ValueError: number sections must be larger than 0."
  else
    RunOutcome.jobs (array_split units (backscNJobs units.length maxUnitsPerJob).toNat)

/-- Run tail of intcoh_proc_qsub.py lines 196-205: zero pairs terminate via
sys.exit with a message, that is exit status 1, before the job-count check
and the split. -/
def nciIntcohTail {α : Type} (filepairs : List α) (pairsPerJob maxNJobs : ℕ) : RunOutcome α :=
  if filepairs.length = 0 then RunOutcome.exited "No pairs to process."
  else if (maxNJobs : ℤ) < backscNJobs filepairs.length pairsPerJob then
    RunOutcome.exited "Too many jobs for this query."
  else
    RunOutcome.jobs (array_split filepairs (backscNJobs filepairs.length pairsPerJob).toNat)

/-- Number of batches carried by a run outcome. -/
def numBatches {α : Type} : RunOutcome α → ℕ
  | RunOutcome.jobs bs => bs.length
  | _ => 0

/-- The walltime fields of all submission descriptors of an outcome, one per
batch, in batch order. -/
def submissionWalltimes {α : Type} (ncpu : ℕ) : RunOutcome α → List ℤ
  | RunOutcome.jobs bs => bs.map fun b => sbatchWalltime ncpu b.length
  | _ => []

/-- Concrete scene used in witnesses. -/
def sceneA : Scene := { lat := "-20.1", lon := "130.5", absOrbit := 1000, relOrbit := "44" }

/-- Concrete scene matching sceneA: same 5-character coordinate prefixes,
same relative orbit, absolute orbit difference 5. -/
def sceneB : Scene := { lat := "-20.1234", lon := "130.5678", absOrbit := 1005, relOrbit := "44" }

/-- Splitting into n+1 pieces concatenates back to the input list. -/
lemma array_split_flatten {α : Type} : ∀ (n : ℕ) (l : List α),
    (array_split l (n + 1)).flatten = l := by
  intro n
  induction n with
  | zero =>
    intro l
    simp [array_split, Nat.mod_one, Nat.div_one, List.take_length, List.drop_length]
  | succ n ih =>
    intro l
    rw [array_split]
    simp only [List.flatten_cons]
    rw [ih]
    exact List.take_append_drop _ l

/-- Every piece produced by array_split has the quotient size or one more. -/
lemma array_split_length {α : Type} : ∀ (n : ℕ) (l : List α), ∀ p ∈ array_split l (n + 1),
    p.length = l.length / (n + 1) ∨ p.length = l.length / (n + 1) + 1 := by
  intro n
  induction n with
  | zero =>
    intro l p hp
    rw [array_split] at hp
    have hk : l.length / (0 + 1) + (if l.length % (0 + 1) = 0 then 0 else 1) = l.length := by
      simp [Nat.mod_one]
    rw [hk, List.take_length, List.drop_length] at hp
    have h0 : array_split ([] : List α) 0 = [] := rfl
    rw [h0] at hp
    rcases List.mem_cons.mp hp with h | h
    · subst h
      left
      omega
    · exact absurd h (List.not_mem_nil p)
  | succ n ih =>
    intro l p hp
    rw [array_split] at hp
    have e1 : (n + 1 + 1) * (l.length / (n + 1 + 1)) + l.length % (n + 1 + 1) = l.length :=
      Nat.div_add_mod _ _
    have e3 : (n + 1 + 1) * (l.length / (n + 1 + 1)) =
        (n + 1) * (l.length / (n + 1 + 1)) + l.length / (n + 1 + 1) := by ring
    by_cases hr : l.length % (n + 1 + 1) = 0
    · rw [if_pos hr] at hp
      rcases List.mem_cons.mp hp with h | h
      · subst h
        left
        rw [List.length_take, Nat.add_zero, min_eq_left (Nat.div_le_self _ _)]
      · have hrec := ih _ p h
        rw [List.length_drop] at hrec
        have e4 : l.length - (l.length / (n + 1 + 1) + 0) =
            (n + 1) * (l.length / (n + 1 + 1)) := by omega
        rw [e4, Nat.mul_div_cancel_left _ (Nat.succ_pos n)] at hrec
        exact hrec
    · rw [if_neg hr] at hp
      have hmlt : l.length % (n + 1 + 1) < n + 1 + 1 := Nat.mod_lt _ (by omega)
      have hle : l.length / (n + 1 + 1) ≤ (n + 1 + 1) * (l.length / (n + 1 + 1)) :=
        Nat.le_mul_of_pos_left _ (by omega)
      rcases List.mem_cons.mp hp with h | h
      · subst h
        right
        rw [List.length_take, min_eq_left (by omega)]
      · have hrec := ih _ p h
        rw [List.length_drop] at hrec
        have hs : l.length % (n + 1 + 1) - 1 < n + 1 := by omega
        have e5 : l.length - (l.length / (n + 1 + 1) + 1) =
            (l.length % (n + 1 + 1) - 1) + (n + 1) * (l.length / (n + 1 + 1)) := by omega
        rw [e5, Nat.add_mul_div_left _ _ (Nat.succ_pos n), Nat.div_eq_of_lt hs,
          Nat.zero_add] at hrec
        exact hrec

/-- The job count is at least 1 as soon as there is a unit to process and
the per-job unit cap is positive. -/
lemma one_le_njobsZ (n : ℕ) (w maxT : ℚ) (maxPer : ℕ) (hn : 1 ≤ n) (hper : 1 ≤ maxPer) :
    1 ≤ njobsZ n w maxT maxPer := by
  have h0 : (0 : ℚ) < (n : ℚ) / (maxPer : ℚ) := by
    apply div_pos
    · exact_mod_cast hn
    · exact_mod_cast hper
  have h1 : 0 < ⌈(n : ℚ) / (maxPer : ℚ)⌉ := Int.ceil_pos.mpr h0
  have h2 := le_max_right (min ⌈totalWalltime w n / maxT⌉ (n : ℤ)) ⌈(n : ℚ) / (maxPer : ℚ)⌉
  unfold njobsZ
  omega

/-- The backscatter job count is at least 1 under the same conditions. -/
lemma one_le_backscNJobs (n maxPer : ℕ) (hn : 1 ≤ n) (hper : 1 ≤ maxPer) :
    1 ≤ backscNJobs n maxPer := by
  have h0 : (0 : ℚ) < (n : ℚ) / (maxPer : ℚ) := by
    apply div_pos
    · exact_mod_cast hn
    · exact_mod_cast hper
  have h1 := Int.ceil_pos.mpr h0
  unfold backscNJobs
  omega

/-- C1: for every non-empty filtered work-unit sequence, the batches the
partitioner returns concatenate, in batch order, exactly to the input
sequence: no unit is dropped, duplicated, or reordered. This is proved for
both the CHPC partitioner and the backscatter partitioner. -/
theorem partition_concat_eq {α : Type} (units : List α) (w maxT : ℚ)
    (maxPer maxJobs : ℕ) (bs bs2 : List (List α))
    (hne : units ≠ []) (hper : 1 ≤ maxPer) :
    (partition units w maxT maxPer maxJobs = Except.ok bs → bs.flatten = units) ∧
    (backscPartition units maxPer maxJobs = Except.ok bs2 → bs2.flatten = units) := by
  have hn : 1 ≤ units.length := List.length_pos.mpr hne
  constructor
  · intro hok
    unfold partition at hok
    by_cases hc : (maxJobs : ℤ) < njobsZ units.length w maxT maxPer
    · rw [if_pos hc] at hok
      exact absurd hok (by simp)
    · rw [if_neg hc] at hok
      injection hok with h
      have h1 : 1 ≤ njobsZ units.length w maxT maxPer := one_le_njobsZ _ _ _ _ hn hper
      obtain ⟨m, hm⟩ : ∃ m, (njobsZ units.length w maxT maxPer).toNat = m + 1 := by
        refine ⟨(njobsZ units.length w maxT maxPer).toNat - 1, ?_⟩
        omega
      rw [← h, hm]
      exact array_split_flatten m units
  · intro hok
    unfold backscPartition at hok
    by_cases hc : (maxJobs : ℤ) < backscNJobs units.length maxPer
    · rw [if_pos hc] at hok
      exact absurd hok (by simp)
    · rw [if_neg hc] at hok
      injection hok with h
      have h1 : 1 ≤ backscNJobs units.length maxPer := one_le_backscNJobs _ _ hn hper
      obtain ⟨m, hm⟩ : ∃ m, (backscNJobs units.length maxPer).toNat = m + 1 := by
        refine ⟨(backscNJobs units.length maxPer).toNat - 1, ?_⟩
        omega
      rw [← h, hm]
      exact array_split_flatten m units

/-- Witness for C1: three units, a per-unit cap of 1, a non-binding job
ceiling; both partitioners return three singleton batches whose
concatenation is the input. -/
theorem partition_concat_eq_witness :
    partition ([0, 1, 2] : List ℕ) 0 1 1 300 = Except.ok [[0], [1], [2]] ∧
    backscPartition ([0, 1, 2] : List ℕ) 1 300 = Except.ok [[0], [1], [2]] ∧
    ([[0], [1], [2]] : List (List ℕ)).flatten = [0, 1, 2] := by
  have hc1 : ⌈totalWalltime 0 (List.length ([0, 1, 2] : List ℕ)) / (1 : ℚ)⌉ = 0 := by
    rw [Int.ceil_eq_iff]
    constructor <;> norm_num [totalWalltime]
  have hc2 : ⌈((List.length ([0, 1, 2] : List ℕ) : ℕ) : ℚ) / ((1 : ℕ) : ℚ)⌉ = 3 := by
    rw [Int.ceil_eq_iff]
    constructor <;> norm_num
  have e : njobsZ (List.length ([0, 1, 2] : List ℕ)) 0 1 1 = 3 := by
    unfold njobsZ
    rw [hc1, hc2]
    decide
  have hok : partition ([0, 1, 2] : List ℕ) 0 1 1 300 = Except.ok [[0], [1], [2]] := by
    unfold partition
    rw [e]
    rw [if_neg (by decide)]
    rfl
  have hok2 : backscPartition ([0, 1, 2] : List ℕ) 1 300 = Except.ok [[0], [1], [2]] := by
    have e2 : backscNJobs (List.length ([0, 1, 2] : List ℕ)) 1 = 3 := by
      unfold backscNJobs
      rw [hc2]
    unfold backscPartition
    rw [e2]
    rw [if_neg (by decide)]
    rfl
  exact ⟨hok, hok2,
    (partition_concat_eq ([0, 1, 2] : List ℕ) 0 1 1 300 [[0], [1], [2]] [[0], [1], [2]]
      (by decide) (by decide)).1 hok⟩

/-- C4: the partitioner fails, emitting no batches, exactly when the
computed job count max(min(ceil(total walltime / max walltime), unit
count), ceil(unit count / per-job cap)) exceeds the job ceiling; in the
scenario of 1400 units with a cap of 4 units per job, the computed count is
350, which exceeds a ceiling of 300, so the run fails. -/
theorem partition_error_iff {α : Type} (units : List α) (w maxT : ℚ)
    (maxPer maxJobs : ℕ) (u : α) :
    ((∃ e, partition units w maxT maxPer maxJobs = Except.error e) ↔
      (maxJobs : ℤ) <
        max (min ⌈w * (units.length : ℚ) / maxT⌉ (units.length : ℤ))
          ⌈(units.length : ℚ) / (maxPer : ℚ)⌉) ∧
    njobsZ 1400 0 300 4 = 350 ∧
    partition (List.replicate 1400 u) 0 300 4 300 =
      Except.error "Error: Too many SBATCH jobs for this query." := by
  have h350 : njobsZ 1400 0 300 4 = 350 := by
    have hc1 : ⌈totalWalltime 0 1400 / (300 : ℚ)⌉ = 0 := by
      rw [Int.ceil_eq_iff]
      constructor <;> norm_num [totalWalltime]
    have hc2 : ⌈((1400 : ℕ) : ℚ) / ((4 : ℕ) : ℚ)⌉ = 350 := by
      rw [Int.ceil_eq_iff]
      constructor <;> norm_num
    unfold njobsZ
    rw [hc1, hc2]
    decide
  refine ⟨⟨?_, ?_⟩, h350, ?_⟩
  · rintro ⟨e, he⟩
    unfold partition at he
    by_cases hc : (maxJobs : ℤ) < njobsZ units.length w maxT maxPer
    · unfold njobsZ totalWalltime at hc
      exact hc
    · rw [if_neg hc] at he
      exact absurd he (by simp)
  · intro hc
    refine ⟨"Error: Too many SBATCH jobs for this query.", ?_⟩
    unfold partition
    rw [if_pos (by unfold njobsZ totalWalltime; exact hc)]
  · unfold partition
    rw [List.length_replicate, h350]
    rw [if_pos (by decide)]

/-- C5: whenever the partitioner succeeds, its batches are contiguous
order-preserving chunks of the input whose sizes pairwise differ by at most
one unit. -/
theorem partition_batch_sizes {α : Type} (units : List α) (w maxT : ℚ)
    (maxPer maxJobs : ℕ) (bs : List (List α))
    (hne : units ≠ []) (hper : 1 ≤ maxPer)
    (hok : partition units w maxT maxPer maxJobs = Except.ok bs) :
    (∀ b1 ∈ bs, ∀ b2 ∈ bs, b1.length ≤ b2.length + 1) ∧ bs.flatten = units := by
  have hn : 1 ≤ units.length := List.length_pos.mpr hne
  unfold partition at hok
  by_cases hc : (maxJobs : ℤ) < njobsZ units.length w maxT maxPer
  · rw [if_pos hc] at hok
    exact absurd hok (by simp)
  · rw [if_neg hc] at hok
    injection hok with h
    have h1 : 1 ≤ njobsZ units.length w maxT maxPer := one_le_njobsZ _ _ _ _ hn hper
    obtain ⟨m, hm⟩ : ∃ m, (njobsZ units.length w maxT maxPer).toNat = m + 1 := by
      refine ⟨(njobsZ units.length w maxT maxPer).toNat - 1, ?_⟩
      omega
    rw [← h, hm]
    constructor
    · intro b1 hb1 b2 hb2
      rcases array_split_length m units b1 hb1 with h1 | h1 <;>
        rcases array_split_length m units b2 hb2 with h2 | h2 <;> omega
    · exact array_split_flatten m units

/-- Witness for C5, the scenario from the spec: 7 units, at most 3 per
batch, a non-binding walltime ceiling (dual-pol calibration at 8 CPUs):
exactly 3 contiguous batches of sizes 3, 2, 2. -/
theorem partition_batch_sizes_witness :
    partition ([0, 1, 2, 3, 4, 5, 6] : List ℕ) (walltime_per_scene 8) 480 3 300 =
      Except.ok [[0, 1, 2], [3, 4], [5, 6]] ∧
    ([0, 1, 2] : List ℕ).length ≤ ([3, 4] : List ℕ).length + 1 := by
  have hc1 : ⌈totalWalltime (walltime_per_scene 8)
      (List.length ([0, 1, 2, 3, 4, 5, 6] : List ℕ)) / (480 : ℚ)⌉ = 2 := by
    rw [Int.ceil_eq_iff]
    constructor <;> norm_num [totalWalltime, walltime_per_scene]
  have hc2 : ⌈((List.length ([0, 1, 2, 3, 4, 5, 6] : List ℕ) : ℕ) : ℚ) / ((3 : ℕ) : ℚ)⌉ = 3 := by
    rw [Int.ceil_eq_iff]
    constructor <;> norm_num
  have e : njobsZ (List.length ([0, 1, 2, 3, 4, 5, 6] : List ℕ)) (walltime_per_scene 8) 480 3 = 3 := by
    unfold njobsZ
    rw [hc1, hc2]
    decide
  have hok : partition ([0, 1, 2, 3, 4, 5, 6] : List ℕ) (walltime_per_scene 8) 480 3 300 =
      Except.ok [[0, 1, 2], [3, 4], [5, 6]] := by
    unfold partition
    rw [e]
    rw [if_neg (by decide)]
    rfl
  exact ⟨hok,
    (partition_batch_sizes ([0, 1, 2, 3, 4, 5, 6] : List ℕ) (walltime_per_scene 8) 480 3 300
      [[0, 1, 2], [3, 4], [5, 6]] (by decide) (by decide) hok).1
      [0, 1, 2] (by decide) [3, 4] (by decide)⟩

/-- Membership in the inner pairing loop for outer index a: exactly the
(a, j) with j in range(a+1, n) whose scenes satisfy the pair condition. -/
lemma mem_innerMatches (s : List Scene) (a x y : ℕ) :
    (x, y) ∈ innerMatches s a ↔
      x = a ∧ a + 1 ≤ y ∧ y < a + 1 + (s.length - (a + 1)) ∧
        matchB (s.getD a default) (s.getD y default) = true := by
  unfold innerMatches
  rw [List.mem_map]
  constructor
  · rintro ⟨b, hb, he⟩
    rw [List.mem_filter, List.mem_range'_1] at hb
    injection he with he1 he2
    subst he1
    subst he2
    exact ⟨rfl, hb.1.1, hb.1.2, hb.2⟩
  · rintro ⟨rfl, h2, h3, hm⟩
    refine ⟨y, ?_, rfl⟩
    rw [List.mem_filter, List.mem_range'_1]
    exact ⟨⟨h2, h3⟩, hm⟩

/-- Membership in the full pairing scan, characterised by the loop bounds
and the pair condition. -/
lemma mem_findPairsIdx (s : List Scene) (i j : ℕ) :
    (i, j) ∈ findPairsIdx s ↔
      i < s.length ∧ i + 1 ≤ j ∧ j < i + 1 + (s.length - (i + 1)) ∧
        matchB (s.getD i default) (s.getD j default) = true := by
  unfold findPairsIdx
  rw [List.mem_flatten]
  constructor
  · rintro ⟨L, hL, hmem⟩
    rw [List.mem_map] at hL
    obtain ⟨a, ha, rfl⟩ := hL
    rw [List.mem_range] at ha
    rw [mem_innerMatches] at hmem
    obtain ⟨rfl, h2, h3, hm⟩ := hmem
    exact ⟨ha, h2, h3, hm⟩
  · rintro ⟨hi, hj1, hj2, hm⟩
    refine ⟨innerMatches s i, ?_, ?_⟩
    · rw [List.mem_map]
      exact ⟨i, List.mem_range.mpr hi, rfl⟩
    · rw [mem_innerMatches]
      exact ⟨rfl, hj1, hj2, hm⟩

/-- The pair condition is symmetric in the two scenes. -/
lemma matchB_comm (a b : Scene) : matchB a b = true ↔ matchB b a = true := by
  simp only [matchB, Bool.and_eq_true, decide_eq_true_eq]
  constructor <;> rintro ⟨⟨⟨h1, h2⟩, h3⟩, h4⟩ <;>
    exact ⟨⟨⟨h1.symm, h2.symm⟩, by rwa [abs_sub_comm]⟩, h4.symm⟩

/-- Every pair emitted by the inner loop for outer index i has first
component i. -/
lemma fst_eq_of_mem_innerMatches {s : List Scene} {i : ℕ} {p : ℕ × ℕ}
    (hp : p ∈ innerMatches s i) : p.1 = i := by
  unfold innerMatches at hp
  obtain ⟨j, hj, rfl⟩ := List.mem_map.mp hp
  rfl

/-- The pairing scan emits no duplicate index pair. -/
lemma findPairsIdx_nodup (s : List Scene) : (findPairsIdx s).Nodup := by
  unfold findPairsIdx
  rw [List.nodup_flatten]
  constructor
  · intro L hL
    obtain ⟨i, hi, rfl⟩ := List.mem_map.mp hL
    unfold innerMatches
    refine List.Nodup.map ?_ (List.Nodup.filter _ (List.nodup_range' _ _ _))
    intro x y hxy
    simpa using hxy
  · rw [List.pairwise_map]
    refine List.Pairwise.imp ?_ (List.nodup_range s.length)
    intro a b hab p hpa hpb
    exact hab (by rw [← fst_eq_of_mem_innerMatches hpa, fst_eq_of_mem_innerMatches hpb])

/-- C2: for two scenes at positions i < j of the input sequence, the
pairing engine emits the index pair (i, j) if and only if the 5-character
latitude and longitude prefixes agree, the relative orbit numbers agree,
and the absolute orbit numbers differ by strictly less than 180. -/
theorem findPairsIdx_mem_iff (s : List Scene) (i j : ℕ) (hij : i < j) (hj : j < s.length) :
    ((i, j) ∈ findPairsIdx s ↔
      (take5 (s.getD i default).lat = take5 (s.getD j default).lat ∧
       take5 (s.getD i default).lon = take5 (s.getD j default).lon ∧
       (s.getD i default).relOrbit = (s.getD j default).relOrbit ∧
       |(s.getD i default).absOrbit - (s.getD j default).absOrbit| < 180)) := by
  rw [mem_findPairsIdx]
  have hin : i < s.length := lt_trans hij hj
  constructor
  · rintro ⟨-, -, -, hm⟩
    simp only [matchB, Bool.and_eq_true, decide_eq_true_eq] at hm
    obtain ⟨⟨⟨h1, h2⟩, h3⟩, h4⟩ := hm
    exact ⟨h1, h2, h4, h3⟩
  · rintro ⟨h1, h2, h4, h3⟩
    refine ⟨hin, hij, by omega, ?_⟩
    simp only [matchB, Bool.and_eq_true, decide_eq_true_eq]
    exact ⟨⟨⟨h1, h2⟩, h3⟩, h4⟩

/-- Witness for C2: sceneA and sceneB share their coordinate prefixes and
relative orbit and have absolute orbit difference 5, so positions 0 and 1
of the two-scene input are emitted as a pair. -/
theorem findPairsIdx_mem_iff_witness : (0, 1) ∈ findPairsIdx [sceneA, sceneB] :=
  (findPairsIdx_mem_iff [sceneA, sceneB] 0 1 (by decide) (by decide)).mpr (by decide)

/-- C3: the pairing engine never pairs a position with itself (the primary
is always the earlier encounter position), never emits the same index pair
twice, and for a matching pair of scenes either input order yields exactly
one pair unit whose primary is the first-encountered scene. -/
theorem findPairs_unordered_unique (s : List Scene) (a b : Scene) :
    (∀ p ∈ findPairsIdx s, p.1 < p.2) ∧
    (findPairsIdx s).Nodup ∧
    (matchB a b = true →
      findPairs [a, b] = [(a, b)] ∧ findPairs [b, a] = [(b, a)]) := by
  refine ⟨?_, findPairsIdx_nodup s, ?_⟩
  · rintro ⟨i, j⟩ hp
    obtain ⟨-, h2, -, -⟩ := (mem_findPairsIdx s i j).mp hp
    exact Nat.lt_of_succ_le h2
  · intro hab
    have hba : matchB b a = true := (matchB_comm a b).mp hab
    constructor
    · simp [findPairs, findPairsIdx, innerMatches, List.range_succ, hab]
    · simp [findPairs, findPairsIdx, innerMatches, List.range_succ, hba]

/-- Witness for C3: the matching scenes sceneA and sceneB yield exactly one
pair unit in either input order, with the first-encountered scene primary. -/
theorem findPairs_unordered_unique_witness :
    matchB sceneA sceneB = true ∧
    (findPairs [sceneA, sceneB] = [(sceneA, sceneB)] ∧
     findPairs [sceneB, sceneA] = [(sceneB, sceneA)]) :=
  ⟨by decide, (findPairs_unordered_unique [sceneA, sceneB] sceneA sceneB).2.2 (by decide)⟩

/-- C6: a unit whose expected output artifact exists is excluded when the
reprocess flag is off and included when it is on; units without an existing
artifact are always kept; the surviving units form a sublist of the input,
so their relative order is preserved. -/
theorem filterExisting_spec {α : Type} (isfile : String → Bool) (outPath : α → String)
    (units : List α) (u : α) :
    filterExisting isfile outPath true units = units ∧
    (isfile (outPath u) = true → u ∉ filterExisting isfile outPath false units) ∧
    (u ∈ units → isfile (outPath u) = false → u ∈ filterExisting isfile outPath false units) ∧
    (∀ force : Bool, List.Sublist (filterExisting isfile outPath force units) units) := by
  refine ⟨rfl, fun hex hmem => ?_, fun hu hnex => ?_, fun force => ?_⟩
  · simp only [filterExisting, if_false, List.mem_filter, hex] at hmem
    simp [hex] at hmem
  · simp only [filterExisting, if_false, List.mem_filter]
    simp [hu, hnex]
  · cases force
    · simpa only [filterExisting, if_false] using List.filter_sublist units
    · simpa only [filterExisting, if_true] using List.Sublist.refl units

/-- Witness for C6: with an output tree containing only the artifact of
unit 0, unit 0 is dropped and unit 1 survives when reprocessing is off. -/
theorem filterExisting_spec_witness :
    (0 : ℕ) ∉ filterExisting (fun s => decide (s = "x"))
      (fun n => if n = 0 then "x" else "y") false [0, 1] ∧
    (1 : ℕ) ∈ filterExisting (fun s => decide (s = "x"))
      (fun n => if n = 0 then "x" else "y") false [0, 1] :=
  ⟨(filterExisting_spec (fun s => decide (s = "x"))
      (fun n => if n = 0 then "x" else "y") [0, 1] 0).2.1 (by decide),
   (filterExisting_spec (fun s => decide (s = "x"))
      (fun n => if n = 0 then "x" else "y") [0, 1] 1).2.2.1 (by decide) (by decide)⟩

/-- C7 counterexample: at 60 CPUs the fitted per-pair walltime is negative,
so the total estimate strictly decreases from 1 unit to 2 units; the
claimed unconditional monotonicity in the unit count fails. -/
theorem totalWalltime_not_monotone :
    ¬ totalWalltime (walltime_per_pair 60) 1 ≤ totalWalltime (walltime_per_pair 60) 2 := by
  norm_num [totalWalltime, walltime_per_pair]

/-- C7 amended: for a fixed CPU count at which the calibrated per-unit
walltime is nonnegative (true throughout the fitted range, e.g. up to 52
CPUs for the coherence profile), the total estimate is monotonically
non-decreasing in the unit count, for both calibration profiles. -/
theorem totalWalltime_monotone_of_nonneg (c n1 n2 : ℕ) (h12 : n1 ≤ n2) :
    (0 ≤ walltime_per_pair c →
      totalWalltime (walltime_per_pair c) n1 ≤ totalWalltime (walltime_per_pair c) n2) ∧
    (0 ≤ walltime_per_scene c →
      totalWalltime (walltime_per_scene c) n1 ≤ totalWalltime (walltime_per_scene c) n2) := by
  constructor <;> intro hw <;> unfold totalWalltime <;>
    exact mul_le_mul_of_nonneg_left (by exact_mod_cast h12) hw

/-- Witness for the amended C7 at the default 8 CPUs with 3 and 5 units. -/
theorem totalWalltime_monotone_of_nonneg_witness :
    (3 : ℕ) ≤ 5 ∧ (0 : ℚ) ≤ walltime_per_pair 8 ∧
    totalWalltime (walltime_per_pair 8) 3 ≤ totalWalltime (walltime_per_pair 8) 5 :=
  ⟨by norm_num, by norm_num [walltime_per_pair],
   (totalWalltime_monotone_of_nonneg 8 3 5 (by norm_num)).1 (by norm_num [walltime_per_pair])⟩

/-- C8 counterexample: with zero work units remaining, the cited code paths
do not all produce an informational no-work result: a CHPC coherence run
emptied by the idempotency filter crashes in the report line, the NCI
backscatter run reaches the partitioner and crashes inside it, and the NCI
coherence run terminates through sys.exit with exit status 1. -/
theorem pipeline_empty_not_informational :
    intcohTail ([] : List ℕ) 1 0 300 4 300 =
      RunOutcome.crashed "UnboundLocalError: local variable n_pairs referenced before assignment" ∧
    intcohTail ([] : List ℕ) 1 0 300 4 300 ≠ RunOutcome.noWork ∧
    backscTail ([] : List ℕ) 10 300 =
      RunOutcome.crashed "ValueError: number sections must be larger than 0." ∧
    nciIntcohTail ([] : List ℕ) 5 300 = RunOutcome.exited "No pairs to process." := by
  have hb : backscNJobs (List.length ([] : List ℕ)) 10 = 0 := by
    simp [backscNJobs]
  refine ⟨rfl, fun h => RunOutcome.noConfusion h, ?_, rfl⟩
  unfold backscTail
  rw [hb]
  rw [if_neg (by decide), if_pos (by decide)]

/-- C8 amended: when zero units remain and the idempotency filter dropped
nothing, the CHPC coherence tail returns the informational no-work outcome
without reaching the partitioner, carrying zero batches and zero submission
descriptors, and that outcome is distinct from every crash or exit; but a
run emptied by the filter crashes with UnboundLocalError in the report
line, the backscatter tail invokes the partitioner on zero units and
crashes with ValueError, and the NCI coherence tail exits with status 1. -/
theorem pipeline_empty_outcomes {α : Type} (ncpu n_not_reproc : ℕ) (w maxT : ℚ)
    (maxPer maxJobs pairsPerJob : ℕ) (hper : 1 ≤ maxPer) :
    (intcohTail ([] : List α) 0 w maxT maxPer maxJobs = RunOutcome.noWork ∧
     numBatches (intcohTail ([] : List α) 0 w maxT maxPer maxJobs) = 0 ∧
     submissionWalltimes ncpu (intcohTail ([] : List α) 0 w maxT maxPer maxJobs) = [] ∧
     (∀ s, (RunOutcome.noWork : RunOutcome α) ≠ RunOutcome.crashed s) ∧
     (∀ s, (RunOutcome.noWork : RunOutcome α) ≠ RunOutcome.exited s)) ∧
    (n_not_reproc ≠ 0 →
      intcohTail ([] : List α) n_not_reproc w maxT maxPer maxJobs =
        RunOutcome.crashed "UnboundLocalError: local variable n_pairs referenced before assignment") ∧
    backscTail ([] : List α) maxPer maxJobs =
      RunOutcome.crashed "ValueError: number sections must be larger than 0." ∧
    nciIntcohTail ([] : List α) pairsPerJob maxJobs = RunOutcome.exited "No pairs to process." := by
  refine ⟨⟨rfl, rfl, rfl, fun s h => RunOutcome.noConfusion h,
    fun s h => RunOutcome.noConfusion h⟩, ?_, ?_, rfl⟩
  · intro hn
    have hrep : reportSkippedLine n_not_reproc none =
        Except.error "UnboundLocalError: local variable n_pairs referenced before assignment" := by
      unfold reportSkippedLine
      rw [if_pos hn]
    unfold intcohTail
    rw [hrep]
  · have hb : backscNJobs (List.length ([] : List α)) maxPer = 0 := by
      simp [backscNJobs]
    unfold backscTail
    rw [hb]
    rw [if_neg (by omega), if_pos (by omega)]

/-- Witness for the amended C8 at concrete parameters: the no-work return
with nothing filtered, the UnboundLocalError crash with one filtered pair,
the backscatter ValueError on zero units, and the NCI status-1 exit. -/
theorem pipeline_empty_outcomes_witness :
    (1 : ℕ) ≤ 4 ∧ (1 : ℕ) ≠ 0 ∧
    intcohTail ([] : List ℕ) 0 0 300 4 300 = RunOutcome.noWork ∧
    intcohTail ([] : List ℕ) 1 0 300 4 300 =
      RunOutcome.crashed "UnboundLocalError: local variable n_pairs referenced before assignment" ∧
    backscTail ([] : List ℕ) 4 300 =
      RunOutcome.crashed "ValueError: number sections must be larger than 0." ∧
    nciIntcohTail ([] : List ℕ) 5 300 = RunOutcome.exited "No pairs to process." := by
  obtain ⟨h1, h2, h3, h4⟩ :=
    pipeline_empty_outcomes (α := ℕ) 8 1 0 300 4 300 5 (by norm_num)
  exact ⟨by norm_num, by norm_num, h1.1, h2 (by norm_num), h3, h4⟩

/-- C9: in CHPC_intcoh_proc_qsub.py the skipped-pair report at line 312
reads the local n_pairs before its first assignment at line 314, so any run
with a nonzero skipped count aborts with UnboundLocalError instead of
reporting the count and continuing. -/
theorem intcoh_report_aborts :
    intcohCountAndReport ["pairline"] 1 =
      Except.error "UnboundLocalError: local variable n_pairs referenced before assignment" := rfl

/-- Python round of a rational strictly above one half is at least 1. -/
lemma one_le_pythonRound (q : ℚ) (h : 1 / 2 < q) : 1 ≤ pythonRound q := by
  have h0 : (0 : ℤ) ≤ ⌊q⌋ := Int.floor_nonneg.mpr (by linarith)
  have hfl : (⌊q⌋ : ℚ) ≤ q := Int.floor_le q
  unfold pythonRound
  split_ifs with h1 h2 h3
  · have h4 : (0 : ℚ) < (⌊q⌋ : ℚ) := by linarith
    have h5 : (0 : ℤ) < ⌊q⌋ := by exact_mod_cast h4
    omega
  · omega
  · have hq : q - ⌊q⌋ = 1 / 2 := le_antisymm (not_lt.mp h2) (not_lt.mp h1)
    have h4 : (0 : ℚ) < (⌊q⌋ : ℚ) := by linarith
    have h5 : (0 : ℤ) < ⌊q⌋ := by exact_mod_cast h4
    omega
  · omega

/-- C10 counterexample: at 53 CPUs the per-pair estimate of a one-pair
batch is about -1.01 minutes, and the submitted walltime field is -1,
which is below the claimed minimum of 1 minute. -/
theorem sbatchWalltime_below_one : sbatchWalltime 53 1 < 1 := by
  have hfl : ⌊walltime_per_pair 53 * ((1 : ℕ) : ℚ)⌋ = -2 := by
    rw [Int.floor_eq_iff]
    constructor <;> norm_num [walltime_per_pair]
  unfold sbatchWalltime pythonRound
  rw [hfl]
  rw [if_neg (by norm_num [walltime_per_pair]), if_pos (by norm_num [walltime_per_pair])]
  decide

/-- C10 amended: the submitted walltime field equals the batch estimate
rounded with Python round (half to even); there is no minimum-1 clamp in
the code, but the field is at least 1 whenever the batch estimate exceeds
half a minute, which holds at the default CPU count. -/
theorem sbatchWalltime_spec (ncpu njob : ℕ) :
    sbatchWalltime ncpu njob = pythonRound (walltime_per_pair ncpu * (njob : ℚ)) ∧
    (1 / 2 < walltime_per_pair ncpu * (njob : ℚ) → 1 ≤ sbatchWalltime ncpu njob) :=
  ⟨rfl, fun h => one_le_pythonRound _ h⟩

/-- Witness for the amended C10 at the default 8 CPUs with a 1-pair batch. -/
theorem sbatchWalltime_spec_witness :
    (1 : ℚ) / 2 < walltime_per_pair 8 * ((1 : ℕ) : ℚ) ∧ 1 ≤ sbatchWalltime 8 1 :=
  ⟨by norm_num [walltime_per_pair], (sbatchWalltime_spec 8 1).2 (by norm_num [walltime_per_pair])⟩

end Radar
